import Mathlib

/-!
Verification model of `bike_class.py` (Toronto Bike Share data loader).

The Python class `BikeShareDataLoader` is embedded shallowly:

* strings and their operations (`lower`, substring `in`, `endswith`) are
  modelled on `List Char`;
* pandas `DataFrame`s are the abstract `Table` structure (column names, a
  row-index list, and an opaque list of rows);
* the external effects (HTTP fetch, `zipfile`, `chardet`, `pd.read_csv`,
  `pd.read_excel`) are oracles collected in a `World` record; fallible calls
  return `Except`;
* a Python exception that is caught corresponds to an `Except.error`
  consumed inside a definition, an uncaught one to an `Except.error`
  returned to the caller.
-/

namespace BikeShare

/-! ## String primitives (Python `str.lower`, `in`, `endswith`) -/

/-- ASCII lower-casing of one character, as Python `str.lower` acts on the
ASCII range (all strings appearing in the source are ASCII). -/
def lowerChar (c : Char) : Char :=
  if 'A' ≤ c ∧ c ≤ 'Z' then Char.ofNat (c.toNat + 32) else c

/-- Python `s.lower()`. -/
def toLowerStr (s : String) : String :=
  String.mk (s.data.map lowerChar)

/-- Whether `pat` is an initial segment of `s` (character lists). -/
def leadMatch : List Char → List Char → Bool
  | [], _ => true
  | _ :: _, [] => false
  | a :: as, b :: bs => a = b && leadMatch as bs

/-- Whether `pat` occurs as a contiguous segment of `s` (character lists). -/
def listSub (pat s : List Char) : Bool :=
  match s with
  | [] => leadMatch pat []
  | _ :: rest => leadMatch pat s || listSub pat rest

/-- Python `pat in s` (substring containment). -/
def strContains (s pat : String) : Bool :=
  listSub pat.data s.data

/-- Python `s.endswith(suf)`. -/
def strEndsWith (s suf : String) : Bool :=
  leadMatch suf.data.reverse s.data.reverse

/-- Python `s.endswith(tuple)`: true when some listed suffix matches. -/
def endsWithAny (s : String) (sufs : List String) : Bool :=
  sufs.any (strEndsWith s)

/-! ## Tables (pandas DataFrames, abstractly) -/

/-- A pandas `DataFrame`, abstracted: named columns, a row-label list
(`DataFrame.index`) and the rows themselves, kept opaque of type `ρ`. -/
structure Table (ρ : Type) where
  cols : List String
  idx : List Nat
  rows : List ρ
deriving DecidableEq

/-- Python `pd.DataFrame()`: zero rows, zero columns. -/
def emptyTable {ρ : Type} : Table ρ := ⟨[], [], []⟩

/-- Left-to-right union of column-name lists, keeping first occurrences:
pandas' column alignment under `pd.concat`. -/
def colsUnion (css : List (List String)) : List String :=
  css.foldl (fun acc cs => acc ++ cs.filter (fun c => !acc.contains c)) []

/-- Python `pd.concat(ts, ignore_index=True)`: stacks the rows in order and
relabels them `0, 1, ...` contiguously. -/
def pdConcat {ρ : Type} (ts : List (Table ρ)) : Table ρ :=
  let rs := (ts.map Table.rows).flatten
  ⟨colsUnion (ts.map Table.cols), List.range rs.length, rs⟩

/-! ## Catalog resources and the effect oracles -/

/-- Provenance tag for a collected `Table`: the resource URL it was fetched
from, or the name of the ZIP archive member it was parsed from. -/
inductive Origin
  | url (u : String)
  | entry (name : String)
deriving DecidableEq

/-- One CKAN catalog entry, keeping only the fields the loader reads.
`none` models a dictionary missing that key (Python raises `KeyError` /
`AttributeError` on access, depending on the site). -/
structure Resource where
  url : Option String
  format : Option String
deriving DecidableEq

/-- The external collaborators of the loader, as oracles. `β` is the type of
raw byte payloads, `ρ` the opaque row type of parsed tables.

* `fetch` — `requests.get(url, timeout=15)`, returning the body bytes or a
  raised exception;
* `readZip` — `zipfile.ZipFile(...)` + `namelist()` + per-member `read`,
  returning member names with their contents in archive enumeration order,
  or a raised exception (e.g. `BadZipFile`);
* `sampleOf` — the leading 2000 bytes of a payload (`f.read(2000)` /
  `content[:2000]`);
* `detect` — `chardet.detect(sample)`, exposed as the state of its
  result dictionary at key `encoding`: `none` when the key is absent,
  `some none` when it is present with value `None` (inconclusive
  detection), `some (some e)` when an encoding `e` was detected;
* `readCsv` — `pd.read_csv(..., encoding=...)` after pandas has resolved
  its `encoding` parameter to an actual codec name;
* `readXlsx` — `pd.read_excel(..., engine="openpyxl")`. -/
structure World (β ρ : Type) where
  fetch : String → Except String β
  readZip : β → Except String (List (String × β))
  sampleOf : β → β
  detect : β → Option (Option String)
  readCsv : β → String → Except String (Table ρ)
  readXlsx : β → Except String (Table ρ)

/-! ## Encoding choice (lines 44-49 and 76-80 of the source) -/

/-- Python `detected.get('encoding', 'utf-8')`: the default applies only
when the key is absent; a present `None` value passes through. -/
def dictGetEncoding : Option (Option String) → Option String
  | none => some "utf-8"
  | some v => v

/-- Python `if encoding and encoding.lower() == 'ascii': encoding = 'cp1252'`:
substitute cp1252 for a truthy value lower-casing to `ascii`. -/
def asciiFallback : Option String → Option String
  | none => none
  | some e => if e ≠ "" ∧ toLowerStr e = "ascii" then some "cp1252" else some e

/-- Resolution pandas applies to the `encoding` argument of `read_csv`:
`None` (absent) means the default codec `utf-8`. -/
def pandasResolveEncoding : Option String → String
  | none => "utf-8"
  | some e => e

/-- The codec that actually decodes a CSV payload, as a function of the
`chardet` result: source lines 44-49 (resp. 76-80) followed by pandas'
parameter resolution. -/
def effectiveCsvEncoding (d : Option (Option String)) : String :=
  pandasResolveEncoding (asciiFallback (dictGetEncoding d))

/-! ## `extract_valid_dataframes_from_zip` (source lines 34-55) -/

/-- Eligibility test of source line 40:
`filename.endswith(('.csv', '.xlsx')) and year_str in filename`
(case-sensitive, on the name as stored in the archive). -/
def eligibleEntry (year_str filename : String) : Bool :=
  endsWithAny filename [".csv", ".xlsx"] && strContains filename year_str

/-- Body of the loop of source lines 38-54 for one archive member: the
tables it appends to `dfs` (tagged with provenance), or the exception the
member's processing raises. -/
def processEntry {β ρ : Type} (w : World β ρ) (year_str : String)
    (e : String × β) : Except String (List (Origin × Table ρ)) :=
  let filename := e.1
  if eligibleEntry year_str filename then
    if strEndsWith filename ".csv" then
      match w.readCsv e.2 (effectiveCsvEncoding (w.detect (w.sampleOf e.2))) with
      | .ok df => .ok [(.entry filename, df)]
      | .error err => .error err
    else if strEndsWith filename ".xlsx" then
      match w.readXlsx e.2 with
      | .ok df => .ok [(.entry filename, df)]
      | .error err => .error err
    else
      .ok []
  else
    .ok []

/-- Source lines 34-55. The method has no exception handler of its own: the
first member whose processing raises aborts the whole call, discarding the
tables already accumulated in the local `dfs`. -/
def extract_valid_dataframes_from_zip {β ρ : Type} (w : World β ρ)
    (zip_content : β) (year : Nat) : Except String (List (Origin × Table ρ)) :=
  let year_str := toString year
  match w.readZip zip_content with
  | .error e => .error e
  | .ok entries =>
    entries.foldlM (fun dfs e =>
      (processEntry w year_str e).map (fun new => dfs ++ new)) []

/-! ## `get_files` (source lines 57-85) -/

/-- Skip condition of source line 63:
`year_str not in url_lower or "readme" in url_lower or
 not url_lower.endswith(('.zip', '.xlsx', '.csv'))`. -/
def skipResource (year_str url_lower : String) : Bool :=
  !strContains url_lower year_str || strContains url_lower "readme" ||
    !endsWithAny url_lower [".zip", ".xlsx", ".csv"]

/-- The `try` block of source lines 67-82 for one selected resource: the
tables it appends (tagged with provenance), or the exception the block
raises (network failure, missing `format` key, parse failure, ...), which
line 83 will catch. -/
def attemptResource {β ρ : Type} (w : World β ρ) (year : Nat)
    (v : Resource) (url : String) : Except String (List (Origin × Table ρ)) :=
  match w.fetch url with
  | .error e => .error e
  | .ok content =>
    match v.format with
    | none => .error "KeyError: format"
    | some f =>
      let fmt := toLowerStr f
      if fmt = "zip" then
        extract_valid_dataframes_from_zip w content year
      else if fmt = "xlsx" then
        match w.readXlsx content with
        | .ok df => .ok [(.url url, df)]
        | .error e => .error e
      else if fmt = "csv" then
        match w.readCsv content (effectiveCsvEncoding (w.detect (w.sampleOf content))) with
        | .ok df => .ok [(.url url, df)]
        | .error e => .error e
      else
        .ok []

/-- Observable state accumulated by `get_files`: the collected tables (with
provenance tags), the messages printed so far, and the trace of URLs passed
to `get_response`. -/
structure BuildState (ρ : Type) where
  dfs : List (Origin × Table ρ)
  logs : List String
  fetched : List String
deriving DecidableEq

/-- One iteration of the loop of source lines 60-84. `value["url"]` at line
61 sits outside the `try`, so a missing `url` key raises out of `get_files`;
everything from line 68 on is guarded by `try ... except Exception`, which
prints and continues. -/
def processResource {β ρ : Type} (w : World β ρ) (year : Nat)
    (st : BuildState ρ) (v : Resource) : Except String (BuildState ρ) :=
  let year_str := toString year
  match v.url with
  | none => .error "KeyError: url"
  | some url =>
    let url_lower := toLowerStr url
    if skipResource year_str url_lower then
      .ok st
    else
      let st1 : BuildState ρ := { st with fetched := st.fetched ++ [url] }
      match attemptResource w year v url with
      | .ok new => .ok { st1 with dfs := st1.dfs ++ new }
      | .error e =>
        .ok { st1 with logs := st1.logs ++ ["Failed to process " ++ url ++ ": " ++ e] }

/-- Source lines 57-85: fold the per-resource step over the catalog. -/
def get_files {β ρ : Type} (w : World β ρ) (resources : List Resource)
    (year : Nat) : Except String (BuildState ρ) :=
  resources.foldlM (processResource w year) ⟨[], [], []⟩

/-! ## `create_df` (source lines 87-92) -/

/-- Source lines 87-92: collect, then either report an empty result or
concatenate with `ignore_index=True`. Returns the final table with the full
message log. -/
def create_df {β ρ : Type} (w : World β ρ) (resources : List Resource)
    (year : Nat) : Except String (Table ρ × List String) :=
  match get_files w resources year with
  | .error e => .error e
  | .ok st =>
    if st.dfs.isEmpty then
      .ok (emptyTable,
        st.logs ++ ["No valid data files found for year " ++ toString year ++ "."])
    else
      .ok (pdConcat (st.dfs.map Prod.snd), st.logs)

/-! ## `get_metadata` (source lines 28-32) -/

/-- JSON values, as produced by `response.json()`. Objects are modelled as
key-unique association lists (Python dictionaries after parsing). -/
inductive JSON
  | null
  | bool (b : Bool)
  | num (n : Int)
  | str (s : String)
  | arr (xs : List JSON)
  | obj (fields : List (String × JSON))

/-- Dictionary lookup on an object's field list. -/
def alookup : List (String × JSON) → String → Option JSON
  | [], _ => none
  | (k, v) :: rest, key => if k = key then some v else alookup rest key

/-- Python `x is True` on a parsed JSON value: only the boolean `True`
singleton passes. -/
def isPyTrue : JSON → Bool
  | .bool true => true
  | _ => false

/-- Exceptions `get_metadata` can raise. -/
inductive MetaErr
  | jsonError
  | attrError
  | assertError
  | keyError
  | typeError
deriving DecidableEq

/-- Source lines 28-32, applied to the outcome of `response.json()`
(`none` = the body was not valid JSON and `.json()` raised):
`data.get("success", False)` raises `AttributeError` on a non-object;
`assert ... is True` raises `AssertionError` unless the value is the
boolean `True`; `data["result"]` raises `KeyError` when absent;
`...["resources"]` raises `TypeError` on a non-object `result` and
`KeyError` when the key is absent. On success the value of
`resources` is returned verbatim. -/
def get_metadata (body : Option JSON) : Except MetaErr JSON :=
  match body with
  | none => .error .jsonError
  | some data =>
    match data with
    | .obj fields =>
      let success := (alookup fields "success").getD (.bool false)
      if isPyTrue success then
        match alookup fields "result" with
        | none => .error .keyError
        | some r =>
          match r with
          | .obj rf =>
            match alookup rf "resources" with
            | none => .error .keyError
            | some v => .ok v
          | _ => .error .typeError
      else .error .assertError
    | _ => .error .attrError

/-- Total field lookup on an arbitrary JSON value: `none` on non-objects
and on absent keys. Used to state specifications about `get_metadata`. -/
def jfield (j : JSON) (k : String) : Option JSON :=
  match j with
  | .obj fs => alookup fs k
  | _ => none

/-! ## Decomposition of `get_files` into per-resource contributions -/

/-- What one loop iteration of `get_files` appends to the accumulated
state, computed from scratch: collected tables, printed messages, URLs
passed to `get_response`. Meaningful whenever the resource has a `url`
key (otherwise the loop aborts instead of contributing). -/
def resContrib {β ρ : Type} (w : World β ρ) (year : Nat) (v : Resource) :
    List (Origin × Table ρ) × List String × List String :=
  match v.url with
  | none => ([], [], [])
  | some url =>
    if skipResource (toString year) (toLowerStr url) then ([], [], [])
    else
      match attemptResource w year v url with
      | .ok new => (new, [], [url])
      | .error e => ([], ["Failed to process " ++ url ++ ": " ++ e], [url])

/-- The state `get_files` reaches after a whole catalog, as the
concatenation of the per-resource contributions. -/
def buildOf {β ρ : Type} (w : World β ρ) (year : Nat) (rs : List Resource) :
    BuildState ρ :=
  ⟨(rs.map fun v => (resContrib w year v).1).flatten,
   (rs.map fun v => (resContrib w year v).2.1).flatten,
   (rs.map fun v => (resContrib w year v).2.2).flatten⟩

lemma processResource_eq {β ρ : Type} (w : World β ρ) (year : Nat)
    (st : BuildState ρ) (v : Resource) (u : String) (hu : v.url = some u) :
    processResource w year st v =
      .ok ⟨st.dfs ++ (resContrib w year v).1,
           st.logs ++ (resContrib w year v).2.1,
           st.fetched ++ (resContrib w year v).2.2⟩ := by
  unfold processResource resContrib
  rw [hu]
  cases hs : skipResource (toString year) (toLowerStr u) with
  | true => simp [hs]
  | false =>
    cases ha : attemptResource w year v u with
    | ok new => simp [hs, ha]
    | error e => simp [hs, ha]

lemma foldlM_processResource {β ρ : Type} (w : World β ρ) (year : Nat)
    (rs : List Resource) :
    ∀ st : BuildState ρ, (∀ v ∈ rs, (v.url).isSome) →
      rs.foldlM (processResource w year) st =
        .ok ⟨st.dfs ++ (buildOf w year rs).dfs,
             st.logs ++ (buildOf w year rs).logs,
             st.fetched ++ (buildOf w year rs).fetched⟩ := by
  induction rs with
  | nil => intro st _; simp [buildOf, List.foldlM, pure, Except.pure]
  | cons v rest ih =>
    intro st h
    have hv : (v.url).isSome := h v (List.mem_cons_self v rest)
    obtain ⟨u, hu⟩ := Option.isSome_iff_exists.mp hv
    have hrest : ∀ x ∈ rest, (x.url).isSome := fun x hx => h x (List.mem_cons_of_mem v hx)
    rw [List.foldlM_cons, processResource_eq w year st v u hu]
    show rest.foldlM (processResource w year) _ = _
    rw [ih _ hrest]
    simp [buildOf, List.append_assoc]

lemma get_files_eq {β ρ : Type} (w : World β ρ) (year : Nat)
    (rs : List Resource) (h : ∀ v ∈ rs, (v.url).isSome) :
    get_files w rs year = .ok (buildOf w year rs) := by
  unfold get_files
  rw [foldlM_processResource w year rs ⟨[], [], []⟩ h]
  simp

lemma resContrib_fetched {β ρ : Type} (w : World β ρ) (year : Nat)
    (v : Resource) (u : String) (hu : v.url = some u) :
    (resContrib w year v).2.2 =
      if skipResource (toString year) (toLowerStr u) then [] else [u] := by
  unfold resContrib
  rw [hu]
  cases hs : skipResource (toString year) (toLowerStr u) with
  | true => simp [hs]
  | false => cases ha : attemptResource w year v u <;> simp [hs, ha]

lemma buildOf_fetched {β ρ : Type} (w : World β ρ) (year : Nat)
    (rs : List Resource) (h : ∀ v ∈ rs, (v.url).isSome) :
    (buildOf w year rs).fetched =
      (rs.filterMap Resource.url).filter
        (fun u => !skipResource (toString year) (toLowerStr u)) := by
  induction rs with
  | nil => rfl
  | cons v rest ih =>
    have hv : (v.url).isSome := h v (List.mem_cons_self v rest)
    obtain ⟨u, hu⟩ := Option.isSome_iff_exists.mp hv
    have hrest : ∀ x ∈ rest, (x.url).isSome := fun x hx => h x (List.mem_cons_of_mem v hx)
    have ihr := ih hrest
    simp only [buildOf, List.map_cons, List.flatten_cons] at ihr ⊢
    rw [resContrib_fetched w year v u hu, List.filterMap_cons, hu]
    simp only [List.filter_cons]
    cases hs : skipResource (toString year) (toLowerStr u) with
    | true => simpa [hs] using ihr
    | false => simpa [hs] using ihr

lemma not_skipResource_eq (y ul : String) :
    (!skipResource y ul) =
      (strContains ul y && !strContains ul "readme" &&
        (strEndsWith ul ".zip" || strEndsWith ul ".xlsx" || strEndsWith ul ".csv")) := by
  cases h1 : strContains ul y <;> cases h2 : strContains ul "readme" <;>
    cases h3 : strEndsWith ul ".zip" <;> cases h4 : strEndsWith ul ".xlsx" <;>
    cases h5 : strEndsWith ul ".csv" <;>
      simp [skipResource, endsWithAny, h1, h2, h3, h4, h5]

/-! ## Concrete worlds and catalogs used to evaluate the model -/

/-- A small deterministic world over payload ids (`β = Nat`) and numeric
rows (`ρ = Nat`): one ZIP resource with three members (two eligible), one
CSV resource whose sample detects as `ASCII`, one XLSX resource, and a URL
whose fetch always fails. -/
def wPlain : World Nat Nat where
  fetch u :=
    if u = "https://x/a2021.zip" then .ok 0
    else if u = "https://x/b2021.csv" then .ok 3
    else if u = "https://x/c2021.xlsx" then .ok 4
    else .error "ConnectionError"
  readZip b :=
    if b = 0 then .ok [("e2021.csv", 1), ("notes.txt", 9), ("f2021.xlsx", 2)]
    else .error "BadZipFile"
  sampleOf b := b
  detect b := if b = 3 then some (some "ASCII") else some (some "utf-8")
  readCsv b enc :=
    if b = 1 ∧ enc = "utf-8" then .ok ⟨["a"], [0, 1], [1, 2]⟩
    else if b = 3 ∧ enc = "cp1252" then .ok ⟨["b"], [0], [3]⟩
    else .error "ParserError"
  readXlsx b :=
    if b = 2 then .ok ⟨["c"], [0, 1, 2], [4, 5, 6]⟩
    else if b = 4 then .ok ⟨["d"], [0], [7]⟩
    else .error "BadXlsx"

/-- A catalog exercising each branch of the line-63 filter. -/
def rsFilter : List Resource :=
  [⟨some "https://x/a2021.zip", some "zip"⟩,
   ⟨some "https://x/README2021.csv", some "csv"⟩,
   ⟨some "https://x/b2020.csv", some "csv"⟩,
   ⟨some "https://x/c2021.txt", some "csv"⟩,
   ⟨some "https://x/b2021.csv", some "csv"⟩]

/-- A world whose single ZIP resource contains one member, eligible by the
line-40 test although its name starts with `readme`. -/
def wZipReadme : World Nat Nat where
  fetch u := if u = "https://x/data2021.zip" then .ok 0 else .error "ConnectionError"
  readZip b := if b = 0 then .ok [("readme2021.csv", 1)] else .error "BadZipFile"
  sampleOf b := b
  detect _ := some (some "utf-8")
  readCsv b enc :=
    if b = 1 ∧ enc = "utf-8" then .ok ⟨["a"], [0, 1], [10, 20]⟩ else .error "ParserError"
  readXlsx _ := .error "BadXlsx"

/-- The one-descriptor catalog for `wZipReadme`. -/
def rsZipReadme : List Resource :=
  [⟨some "https://x/data2021.zip", some "zip"⟩]

/-- A world whose ZIP resource holds two eligible members: the first parses
fine, the second raises in `pd.read_csv`. -/
def wZipBroken : World Nat Nat where
  fetch u :=
    if u = "https://x/y2021.zip" then .ok 0
    else if u = "https://x/c2021.xlsx" then .ok 4
    else .error "ConnectionError"
  readZip b := if b = 0 then .ok [("a2021.csv", 1), ("b2021.csv", 2)] else .error "BadZipFile"
  sampleOf b := b
  detect _ := some (some "utf-8")
  readCsv b enc :=
    if b = 1 ∧ enc = "utf-8" then .ok ⟨["a"], [0], [1]⟩ else .error "ParserError"
  readXlsx b := if b = 4 then .ok ⟨["d"], [0], [7]⟩ else .error "BadXlsx"

/-! ## Provenance invariant of the collected tables -/

/-- Provenance property of one collected table's origin: a direct resource
passed the line-63 filter on its lowercased URL; a ZIP member passed the
line-40 filter on its stored name (which checks the year only). -/
def originOk (year : Nat) : Origin → Prop
  | .url u => strContains (toLowerStr u) (toString year) = true ∧
      strContains (toLowerStr u) "readme" = false
  | .entry n => strContains n (toString year) = true

lemma processEntry_originOk {β ρ : Type} (w : World β ρ) (year : Nat)
    (e : String × β) (l : List (Origin × Table ρ))
    (h : processEntry w (toString year) e = .ok l) :
    ∀ p ∈ l, originOk year p.1 := by
  unfold processEntry at h
  by_cases he : eligibleEntry (toString year) e.1 = true
  · have hy : strContains e.1 (toString year) = true := by
      have := he
      unfold eligibleEntry at this
      exact (Bool.and_eq_true _ _).mp this |>.2
    rw [if_pos he] at h
    by_cases hc : strEndsWith e.1 ".csv" = true
    · rw [if_pos hc] at h
      cases hr : w.readCsv e.2 (effectiveCsvEncoding (w.detect (w.sampleOf e.2))) with
      | ok df =>
        rw [hr] at h
        cases h
        intro p hp
        simp only [List.mem_singleton] at hp
        subst hp
        exact hy
      | error err => rw [hr] at h; cases h
    · rw [if_neg hc] at h
      by_cases hx : strEndsWith e.1 ".xlsx" = true
      · rw [if_pos hx] at h
        cases hr : w.readXlsx e.2 with
        | ok df =>
          rw [hr] at h
          cases h
          intro p hp
          simp only [List.mem_singleton] at hp
          subst hp
          exact hy
        | error err => rw [hr] at h; cases h
      · rw [if_neg hx] at h
        cases h
        intro p hp
        cases hp
  · rw [if_neg he] at h
    cases h
    intro p hp
    cases hp

lemma extract_foldl_originOk {β ρ : Type} (w : World β ρ) (year : Nat)
    (entries : List (String × β)) :
    ∀ acc L, (∀ p ∈ acc, originOk year p.1) →
      entries.foldlM (fun dfs e =>
        (processEntry w (toString year) e).map (fun new => dfs ++ new)) acc = .ok L →
      ∀ p ∈ L, originOk year p.1 := by
  induction entries with
  | nil =>
    intro acc L hacc h
    cases h
    exact hacc
  | cons e rest ih =>
    intro acc L hacc h
    rw [List.foldlM_cons] at h
    cases hp : processEntry w (toString year) e with
    | ok new =>
      rw [hp] at h
      have hstep : ∀ p ∈ acc ++ new, originOk year p.1 := by
        intro p hmem
        rcases List.mem_append.mp hmem with hm | hm
        · exact hacc p hm
        · exact processEntry_originOk w year e new hp p hm
      exact ih (acc ++ new) L hstep h
    | error err => rw [hp] at h; cases h

lemma extract_originOk {β ρ : Type} (w : World β ρ) (year : Nat)
    (zc : β) (L : List (Origin × Table ρ))
    (h : extract_valid_dataframes_from_zip w zc year = .ok L) :
    ∀ p ∈ L, originOk year p.1 := by
  unfold extract_valid_dataframes_from_zip at h
  cases hz : w.readZip zc with
  | ok entries =>
    rw [hz] at h
    exact extract_foldl_originOk w year entries [] L (by intro p hp; cases hp) h
  | error e => rw [hz] at h; cases h

lemma attemptResource_originOk {β ρ : Type} (w : World β ρ) (year : Nat)
    (v : Resource) (u : String) (new : List (Origin × Table ρ))
    (hs : skipResource (toString year) (toLowerStr u) = false)
    (h : attemptResource w year v u = .ok new) :
    ∀ p ∈ new, originOk year p.1 := by
  have hurl : originOk year (.url u) := by
    have hns : (!skipResource (toString year) (toLowerStr u)) = true := by rw [hs]; rfl
    rw [not_skipResource_eq] at hns
    have h1 := (Bool.and_eq_true _ _).mp ((Bool.and_eq_true _ _).mp hns).1
    refine ⟨h1.1, ?_⟩
    have h2 := h1.2
    cases hr : strContains (toLowerStr u) "readme" with
    | false => rfl
    | true => rw [hr] at h2; cases h2
  unfold attemptResource at h
  cases hf : w.fetch u with
  | error e => rw [hf] at h; cases h
  | ok content =>
    rw [hf] at h
    cases hfmt : v.format with
    | none => rw [hfmt] at h; cases h
    | some f =>
      rw [hfmt] at h
      simp only at h
      by_cases hz : toLowerStr f = "zip"
      · rw [if_pos hz] at h
        exact extract_originOk w year content new h
      · rw [if_neg hz] at h
        by_cases hx : toLowerStr f = "xlsx"
        · rw [if_pos hx] at h
          cases hr : w.readXlsx content with
          | ok df =>
            rw [hr] at h
            cases h
            intro p hp
            simp only [List.mem_singleton] at hp
            subst hp
            exact hurl
          | error e => rw [hr] at h; cases h
        · rw [if_neg hx] at h
          by_cases hc : toLowerStr f = "csv"
          · rw [if_pos hc] at h
            cases hr : w.readCsv content (effectiveCsvEncoding (w.detect (w.sampleOf content))) with
            | ok df =>
              rw [hr] at h
              cases h
              intro p hp
              simp only [List.mem_singleton] at hp
              subst hp
              exact hurl
            | error e => rw [hr] at h; cases h
          · rw [if_neg hc] at h
            cases h
            intro p hp
            cases hp

lemma processResource_originOk {β ρ : Type} (w : World β ρ) (year : Nat)
    (st st' : BuildState ρ) (v : Resource)
    (h : processResource w year st v = .ok st')
    (hacc : ∀ p ∈ st.dfs, originOk year p.1) :
    ∀ p ∈ st'.dfs, originOk year p.1 := by
  unfold processResource at h
  cases hu : v.url with
  | none => rw [hu] at h; cases h
  | some u =>
    rw [hu] at h
    simp only at h
    by_cases hs : skipResource (toString year) (toLowerStr u) = true
    · rw [if_pos hs] at h
      cases h
      exact hacc
    · rw [if_neg hs] at h
      cases ha : attemptResource w year v u with
      | ok new =>
        rw [ha] at h
        cases h
        intro p hp
        rcases List.mem_append.mp hp with hm | hm
        · exact hacc p hm
        · exact attemptResource_originOk w year v u new (Bool.not_eq_true _ ▸ (by simpa using hs)) ha p hm
      | error e =>
        rw [ha] at h
        cases h
        exact hacc

lemma get_files_foldl_originOk {β ρ : Type} (w : World β ρ) (year : Nat)
    (rs : List Resource) :
    ∀ st st', (∀ p ∈ st.dfs, originOk year p.1) →
      rs.foldlM (processResource w year) st = .ok st' →
      ∀ p ∈ st'.dfs, originOk year p.1 := by
  induction rs with
  | nil =>
    intro st st' hacc h
    cases h
    exact hacc
  | cons v rest ih =>
    intro st st' hacc h
    rw [List.foldlM_cons] at h
    cases hp : processResource w year st v with
    | ok st1 =>
      rw [hp] at h
      exact ih st1 st' (processResource_originOk w year st st1 v hp hacc) h
    | error e => rw [hp] at h; cases h

/-! ## Isolation of a failing descriptor -/

lemma buildOf_append {β ρ : Type} (w : World β ρ) (year : Nat)
    (l1 l2 : List Resource) :
    buildOf w year (l1 ++ l2) =
      ⟨(buildOf w year l1).dfs ++ (buildOf w year l2).dfs,
       (buildOf w year l1).logs ++ (buildOf w year l2).logs,
       (buildOf w year l1).fetched ++ (buildOf w year l2).fetched⟩ := by
  simp [buildOf]

lemma buildOf_cons {β ρ : Type} (w : World β ρ) (year : Nat)
    (v : Resource) (l : List Resource) :
    buildOf w year (v :: l) =
      ⟨(resContrib w year v).1 ++ (buildOf w year l).dfs,
       (resContrib w year v).2.1 ++ (buildOf w year l).logs,
       (resContrib w year v).2.2 ++ (buildOf w year l).fetched⟩ := by
  simp [buildOf]

lemma resContrib_of_attempt_error {β ρ : Type} (w : World β ρ) (year : Nat)
    (v : Resource) (u e : String) (hu : v.url = some u)
    (hsel : skipResource (toString year) (toLowerStr u) = false)
    (ha : attemptResource w year v u = .error e) :
    resContrib w year v =
      ([], ["Failed to process " ++ u ++ ": " ++ e], [u]) := by
  unfold resContrib
  rw [hu]
  simp only [hsel, Bool.false_eq_true, if_false, ha]

lemma get_files_skip_failing {β ρ : Type} (w : World β ρ) (year : Nat)
    (pre post : List Resource) (v : Resource) (u e : String)
    (hpre : ∀ r ∈ pre, (r.url).isSome) (hpost : ∀ r ∈ post, (r.url).isSome)
    (hu : v.url = some u)
    (hsel : skipResource (toString year) (toLowerStr u) = false)
    (ha : attemptResource w year v u = .error e) :
    get_files w (pre ++ v :: post) year =
      .ok ⟨(buildOf w year pre).dfs ++ (buildOf w year post).dfs,
        (buildOf w year pre).logs ++
          ("Failed to process " ++ u ++ ": " ++ e) :: (buildOf w year post).logs,
        (buildOf w year pre).fetched ++ u :: (buildOf w year post).fetched⟩ ∧
    get_files w (pre ++ post) year =
      .ok ⟨(buildOf w year pre).dfs ++ (buildOf w year post).dfs,
        (buildOf w year pre).logs ++ (buildOf w year post).logs,
        (buildOf w year pre).fetched ++ (buildOf w year post).fetched⟩ := by
  have hall : ∀ r ∈ pre ++ v :: post, (r.url).isSome := by
    intro r hr
    rcases List.mem_append.mp hr with hm | hm
    · exact hpre r hm
    · rcases List.mem_cons.mp hm with hm' | hm'
      · rw [hm', hu]; rfl
      · exact hpost r hm'
  have hall2 : ∀ r ∈ pre ++ post, (r.url).isSome := by
    intro r hr
    rcases List.mem_append.mp hr with hm | hm
    · exact hpre r hm
    · exact hpost r hm
  have hc := resContrib_of_attempt_error w year v u e hu hsel ha
  constructor
  · rw [get_files_eq w year _ hall, buildOf_append, buildOf_cons, hc]
    simp
  · rw [get_files_eq w year _ hall2, buildOf_append]

/-! ## Shape of a successful archive expansion -/

lemma exceptMap_ok {ε α γ : Type} (f : α → γ) (a : α) :
    Except.map f (.ok a : Except ε α) = .ok (f a) := rfl

lemma except_ok_bind {ε α γ : Type} (a : α) (f : α → Except ε γ) :
    ((.ok a : Except ε α) >>= f) = f a := rfl

lemma except_error_bind {ε α γ : Type} (e : ε) (f : α → Except ε γ) :
    ((.error e : Except ε α) >>= f) = .error e := rfl

lemma eligibleEntry_eq (y n : String) :
    eligibleEntry y n =
      ((strEndsWith n ".csv" || strEndsWith n ".xlsx") && strContains n y) := by
  simp [eligibleEntry, endsWithAny]

lemma processEntry_not_eligible {β ρ : Type} (w : World β ρ) (y : String)
    (e : String × β) (he : eligibleEntry y e.1 = false) :
    processEntry w y e = .ok [] := by
  unfold processEntry
  simp [he]

lemma processEntry_ok_shape {β ρ : Type} (w : World β ρ) (y : String)
    (e : String × β) (l : List (Origin × Table ρ))
    (he : eligibleEntry y e.1 = true) (hl : processEntry w y e = .ok l) :
    ∃ df, l = [(.entry e.1, df)] := by
  unfold processEntry at hl
  rw [if_pos he] at hl
  by_cases hc : strEndsWith e.1 ".csv" = true
  · rw [if_pos hc] at hl
    cases hr : w.readCsv e.2 (effectiveCsvEncoding (w.detect (w.sampleOf e.2))) with
    | ok df => rw [hr] at hl; cases hl; exact ⟨df, rfl⟩
    | error err => rw [hr] at hl; cases hl
  · rw [if_neg hc] at hl
    by_cases hx : strEndsWith e.1 ".xlsx" = true
    · rw [if_pos hx] at hl
      cases hr : w.readXlsx e.2 with
      | ok df => rw [hr] at hl; cases hl; exact ⟨df, rfl⟩
      | error err => rw [hr] at hl; cases hl
    · exfalso
      rw [eligibleEntry_eq] at he
      have := (Bool.and_eq_true _ _).mp he |>.1
      rcases (Bool.or_eq_true _ _).mp this with h | h
      · exact hc h
      · exact hx h

lemma extract_foldl_shape {β ρ : Type} (w : World β ρ) (y : String)
    (entries : List (String × β)) :
    ∀ acc : List (Origin × Table ρ),
      (∀ e ∈ entries, eligibleEntry y e.1 = true →
        (processEntry w y e).isOk = true) →
      ∃ L, entries.foldlM (fun dfs e =>
          (processEntry w y e).map (fun new => dfs ++ new)) acc = .ok L ∧
        L.map Prod.fst = acc.map Prod.fst ++
          (entries.filter (fun e => eligibleEntry y e.1)).map
            (fun e => Origin.entry e.1) := by
  induction entries with
  | nil =>
    intro acc _
    exact ⟨acc, rfl, by simp⟩
  | cons e rest ih =>
    intro acc h
    have hrest : ∀ x ∈ rest, eligibleEntry y x.1 = true →
        (processEntry w y x).isOk = true :=
      fun x hx => h x (List.mem_cons_of_mem e hx)
    by_cases he : eligibleEntry y e.1 = true
    · have hok : (processEntry w y e).isOk = true :=
        h e (List.mem_cons_self e rest) he
      cases hp : processEntry w y e with
      | error err => rw [hp] at hok; cases hok
      | ok l =>
        obtain ⟨df, hdf⟩ := processEntry_ok_shape w y e l he hp
        obtain ⟨L, hL, hmap⟩ := ih (acc ++ l) hrest
        refine ⟨L, ?_, ?_⟩
        · rw [List.foldlM_cons, hp]
          exact hL
        · rw [hmap, hdf]
          simp [List.filter_cons, he]
    · obtain ⟨L, hL, hmap⟩ := ih acc hrest
      refine ⟨L, ?_, ?_⟩
      · rw [List.foldlM_cons,
          processEntry_not_eligible w y e (Bool.not_eq_true _ ▸ (by simpa using he)),
          exceptMap_ok, except_ok_bind, List.append_nil]
        exact hL
      · rw [hmap]
        simp [List.filter_cons, he]

lemma isPyTrue_iff (j : JSON) : isPyTrue j = true ↔ j = .bool true := by
  cases j with
  | bool b => cases b <;> simp [isPyTrue]
  | null => simp [isPyTrue]
  | num n => simp [isPyTrue]
  | str s => simp [isPyTrue]
  | arr xs => simp [isPyTrue]
  | obj fs => simp [isPyTrue]

end BikeShare

namespace BikeShare

/-- C1: for every year and catalog (all of whose descriptors carry a `url`
key), the URLs `get_files` passes to `get_response` are exactly, in order,
those whose lowercased form contains the decimal string of the year, does
not contain `"readme"`, and ends with one of `.zip`, `.xlsx`, `.csv`;
descriptors failing any of the three conditions are skipped. -/
theorem get_files_selects_iff {β ρ : Type} (w : World β ρ) (year : Nat)
    (rs : List Resource) (h : ∀ v ∈ rs, (v.url).isSome) :
    ∃ st, get_files w rs year = .ok st ∧
      st.fetched = (rs.filterMap Resource.url).filter (fun u =>
        strContains (toLowerStr u) (toString year) &&
        !strContains (toLowerStr u) "readme" &&
        (strEndsWith (toLowerStr u) ".zip" || strEndsWith (toLowerStr u) ".xlsx" ||
          strEndsWith (toLowerStr u) ".csv")) := by
  refine ⟨buildOf w year rs, get_files_eq w year rs h, ?_⟩
  rw [buildOf_fetched w year rs h]
  congr 1
  funext u
  rw [not_skipResource_eq]

/-- Evaluation of C1 on `wPlain` and `rsFilter`: exactly the two
conforming URLs are fetched, in catalog order. -/
theorem get_files_selects_iff_witness :
    ∃ st, get_files wPlain rsFilter 2021 = .ok st ∧
      st.fetched = ["https://x/a2021.zip", "https://x/b2021.csv"] := by
  obtain ⟨st, h1, h2⟩ := get_files_selects_iff wPlain 2021 rsFilter (by decide)
  exact ⟨st, h1, h2.trans (by decide)⟩

/-- C2, counterexample: with `wZipReadme`, the final result of `create_df`
contains a table whose identifying string — the archive member name
`readme2021.csv` — does contain `"readme"`; entry names are only checked
for the year, so the claimed invariant fails. -/
theorem create_df_provenance_cex :
    get_files wZipReadme rsZipReadme 2021 =
      .ok ⟨[(.entry "readme2021.csv", ⟨["a"], [0, 1], [10, 20]⟩)], [],
        ["https://x/data2021.zip"]⟩ ∧
    create_df wZipReadme rsZipReadme 2021 = .ok (⟨["a"], [0, 1], [10, 20]⟩, []) ∧
    strContains "readme2021.csv" (toString 2021) = true ∧
    strContains "readme2021.csv" "readme" = true :=
  ⟨rfl, rfl, by decide, by decide⟩

/-- C2, amended: every table collected by `get_files` (hence every table
concatenated by `create_df`) originated either from a resource URL whose
lowercased form contains the year's decimal string and excludes
`"readme"`, or from a ZIP member whose stored name contains the year's
decimal string — member names are not checked against `"readme"`. -/
theorem create_df_provenance {β ρ : Type} (w : World β ρ) (year : Nat)
    (rs : List Resource) (st : BuildState ρ)
    (h : get_files w rs year = .ok st) :
    (∀ p ∈ st.dfs, originOk year p.1) ∧
      (st.dfs ≠ [] →
        create_df w rs year = .ok (pdConcat (st.dfs.map Prod.snd), st.logs)) := by
  constructor
  · exact get_files_foldl_originOk w year rs ⟨[], [], []⟩ st
      (by intro p hp; cases hp) h
  · intro hne
    unfold create_df
    rw [h]
    simp [List.isEmpty_iff, hne]

/-- Evaluation of C2 (amended) on `wPlain` and `rsFilter`: the CSV table
fetched directly from `https://x/b2021.csv` satisfies the provenance
property. -/
theorem create_df_provenance_witness :
    originOk 2021 (Origin.url "https://x/b2021.csv") :=
  (create_df_provenance wPlain 2021 rsFilter
      ⟨[(.entry "e2021.csv", ⟨["a"], [0, 1], [1, 2]⟩),
        (.entry "f2021.xlsx", ⟨["c"], [0, 1, 2], [4, 5, 6]⟩),
        (.url "https://x/b2021.csv", ⟨["b"], [0], [3]⟩)], [],
        ["https://x/a2021.zip", "https://x/b2021.csv"]⟩ rfl).1
    (.url "https://x/b2021.csv", ⟨["b"], [0], [3]⟩) (by simp)

/-- C3: a selected descriptor whose processing raises anywhere inside the
`try` block — network fetch or any downstream parse — is only logged:
`get_files` still returns, the collected tables are exactly those of the
catalog without that descriptor (contributions before and after it are
kept), and the failure message is printed; no per-descriptor failure
aborts the build. -/
theorem get_files_descriptor_failure_isolated {β ρ : Type} (w : World β ρ)
    (year : Nat) (pre post : List Resource) (v : Resource) (u e : String)
    (hpre : ∀ r ∈ pre, (r.url).isSome) (hpost : ∀ r ∈ post, (r.url).isSome)
    (hu : v.url = some u)
    (hsel : skipResource (toString year) (toLowerStr u) = false)
    (hfail : attemptResource w year v u = .error e) :
    ∃ st st', get_files w (pre ++ v :: post) year = .ok st ∧
      get_files w (pre ++ post) year = .ok st' ∧
      st.dfs = st'.dfs ∧
      ("Failed to process " ++ u ++ ": " ++ e) ∈ st.logs := by
  obtain ⟨h1, h2⟩ := get_files_skip_failing w year pre post v u e hpre hpost hu hsel hfail
  exact ⟨_, _, h1, h2, rfl, by simp⟩

/-- Evaluation of C3 on `wPlain`: with a dead URL between an XLSX and a CSV
descriptor, both neighbours' tables are collected and the failure is
logged. -/
theorem get_files_descriptor_failure_isolated_witness :
    ∃ st st',
      get_files wPlain
        [⟨some "https://x/c2021.xlsx", some "xlsx"⟩,
         ⟨some "https://x/dead2021.csv", some "csv"⟩,
         ⟨some "https://x/b2021.csv", some "csv"⟩] 2021 = .ok st ∧
      get_files wPlain
        [⟨some "https://x/c2021.xlsx", some "xlsx"⟩,
         ⟨some "https://x/b2021.csv", some "csv"⟩] 2021 = .ok st' ∧
      st.dfs = st'.dfs ∧
      ("Failed to process " ++ "https://x/dead2021.csv" ++ ": " ++ "ConnectionError") ∈ st.logs :=
  get_files_descriptor_failure_isolated wPlain 2021
    [⟨some "https://x/c2021.xlsx", some "xlsx"⟩]
    [⟨some "https://x/b2021.csv", some "csv"⟩]
    ⟨some "https://x/dead2021.csv", some "csv"⟩
    "https://x/dead2021.csv" "ConnectionError"
    (by decide) (by decide) rfl (by decide) rfl

/-- C4: whenever the ZIP payload opens (yielding `entries`) and every
eligible member parses, the expansion succeeds and produces one table per
member whose name ends with `.csv` or `.xlsx` (case-sensitive, as stored)
and contains the decimal string of the year, in archive enumeration order;
ineligible members are skipped without error, and an archive with no
eligible member yields the empty list, not an error. -/
theorem extract_entry_iff {β ρ : Type} (w : World β ρ) (zc : β) (year : Nat)
    (entries : List (String × β)) (hz : w.readZip zc = .ok entries)
    (hp : ∀ e ∈ entries, eligibleEntry (toString year) e.1 = true →
      (processEntry w (toString year) e).isOk = true) :
    ∃ L, extract_valid_dataframes_from_zip w zc year = .ok L ∧
      L.map Prod.fst =
        (entries.filter (fun e =>
          (strEndsWith e.1 ".csv" || strEndsWith e.1 ".xlsx") &&
            strContains e.1 (toString year))).map (fun e => Origin.entry e.1) ∧
      ((entries.filter (fun e =>
          (strEndsWith e.1 ".csv" || strEndsWith e.1 ".xlsx") &&
            strContains e.1 (toString year))) = [] → L = []) := by
  obtain ⟨L, hL, hmap⟩ := extract_foldl_shape w (toString year) entries [] hp
  have hfe : (entries.filter (fun e => eligibleEntry (toString year) e.1)) =
      entries.filter (fun e =>
        (strEndsWith e.1 ".csv" || strEndsWith e.1 ".xlsx") &&
          strContains e.1 (toString year)) := by
    congr 1
    funext e
    rw [eligibleEntry_eq]
  refine ⟨L, ?_, ?_, ?_⟩
  · unfold extract_valid_dataframes_from_zip
    rw [hz]
    exact hL
  · rw [hmap, hfe]; simp
  · intro hnil
    have : L.map Prod.fst = [] := by
      rw [hmap, hfe, hnil]; simp
    exact List.map_eq_nil_iff.mp this

/-- Evaluation of C4 on `wPlain`'s archive: `e2021.csv` and `f2021.xlsx`
yield tables in enumeration order, `notes.txt` is skipped. -/
theorem extract_entry_iff_witness :
    ∃ L, extract_valid_dataframes_from_zip wPlain 0 2021 = .ok L ∧
      L.map Prod.fst = [Origin.entry "e2021.csv", Origin.entry "f2021.xlsx"] := by
  obtain ⟨L, h1, h2, _⟩ := extract_entry_iff wPlain 0 2021
    [("e2021.csv", 1), ("notes.txt", 9), ("f2021.xlsx", 2)] rfl (by decide)
  exact ⟨L, h1, h2.trans (by decide)⟩

/-- C5: the codec `processEntry` and `attemptResource` hand to `readCsv` —
`effectiveCsvEncoding` applied to the `chardet` report — is `cp1252`
whenever the detector reports ASCII in any letter case, the detector's
result unchanged for any other conclusive detection, and `utf-8` when the
detector is inconclusive (its `encoding` value is `None`, which pandas'
`read_csv` resolves to the default `utf-8` codec). -/
theorem csv_encoding_choice (e : String) :
    (toLowerStr e = "ascii" → effectiveCsvEncoding (some (some e)) = "cp1252") ∧
    (toLowerStr e ≠ "ascii" → effectiveCsvEncoding (some (some e)) = e) ∧
    effectiveCsvEncoding (some none) = "utf-8" := by
  refine ⟨?_, ?_, rfl⟩
  · intro h
    have hne : e ≠ "" := by
      intro h0
      rw [h0] at h
      exact absurd h (by decide)
    simp [effectiveCsvEncoding, dictGetEncoding, asciiFallback,
      pandasResolveEncoding, h, hne]
  · intro h
    simp [effectiveCsvEncoding, dictGetEncoding, asciiFallback,
      pandasResolveEncoding, h]

/-- Evaluation of C5: an `ASCII` report becomes `cp1252`, a `latin-1`
report passes through, an inconclusive report decodes as `utf-8`. -/
theorem csv_encoding_choice_witness :
    toLowerStr "ASCII" = "ascii" ∧
    effectiveCsvEncoding (some (some "ASCII")) = "cp1252" ∧
    toLowerStr "latin-1" ≠ "ascii" ∧
    effectiveCsvEncoding (some (some "latin-1")) = "latin-1" ∧
    effectiveCsvEncoding (some none) = "utf-8" :=
  ⟨by decide, (csv_encoding_choice "ASCII").1 (by decide), by decide,
    (csv_encoding_choice "latin-1").2.1 (by decide),
    (csv_encoding_choice "utf-8").2.2⟩

/-- C6, counterexample: a body that is valid JSON, whose `success` field is
present and is not `false` (it is the number `1`), and whose
`result.resources` is present, still makes `get_metadata` raise: the
`assert data.get("success", False) is True` accepts only the boolean
`True`, not every non-false value. -/
theorem get_metadata_cex :
    get_metadata (some (.obj [("success", .num 1),
      ("result", .obj [("resources", .arr [])])])) = .error .assertError ∧
    jfield (.obj [("success", .num 1),
      ("result", .obj [("resources", .arr [])])]) "success" = some (.num 1) ∧
    (JSON.num 1 ≠ JSON.bool false) ∧
    jfield (.obj [("success", .num 1),
      ("result", .obj [("resources", .arr [])])]) "result" =
      some (.obj [("resources", .arr [])]) :=
  ⟨rfl, rfl, fun h => JSON.noConfusion h, rfl⟩

/-- C6, amended: `get_metadata` returns a value — the `resources` field
verbatim — exactly when the body parses to a JSON object whose `success`
member is the JSON boolean `true` and whose `result` member is an object
carrying a `resources` member; in every other case (invalid JSON,
non-object body, `success` absent or anything other than the boolean
`true`, `result` absent or not an object, `resources` absent) it raises. -/
theorem get_metadata_spec (body : Option JSON) (v : JSON) :
    get_metadata body = .ok v ↔
      ∃ data r, body = some data ∧
        jfield data "success" = some (.bool true) ∧
        jfield data "result" = some r ∧
        jfield r "resources" = some v := by
  constructor
  · intro hv
    cases body with
    | none => cases hv
    | some data =>
      cases data with
      | obj fields =>
        unfold get_metadata at hv
        simp only at hv
        by_cases hst : isPyTrue ((alookup fields "success").getD (.bool false)) = true
        · rw [if_pos hst] at hv
          have hsucc : alookup fields "success" = some (.bool true) := by
            cases ha : alookup fields "success" with
            | none =>
              rw [ha] at hst
              exact absurd hst (by simp [Option.getD, isPyTrue])
            | some s =>
              rw [ha] at hst
              simp only [Option.getD_some] at hst
              rw [(isPyTrue_iff s).mp hst]
          cases hr : alookup fields "result" with
          | none => rw [hr] at hv; cases hv
          | some r =>
            rw [hr] at hv
            simp only at hv
            cases r with
            | obj rf =>
              simp only at hv
              cases hrs : alookup rf "resources" with
              | none => rw [hrs] at hv; cases hv
              | some v' =>
                rw [hrs] at hv
                simp only at hv
                cases hv
                exact ⟨.obj fields, .obj rf, rfl, hsucc, by simp [jfield, hr],
                  by simp [jfield, hrs]⟩
            | null => cases hv
            | bool b => cases hv
            | num n => cases hv
            | str s => cases hv
            | arr xs => cases hv
        · rw [if_neg hst] at hv
          cases hv
      | null => cases hv
      | bool b => cases hv
      | num n => cases hv
      | str s => cases hv
      | arr xs => cases hv
  · rintro ⟨data, r, hb, hs, hr, hres⟩
    subst hb
    cases data with
    | obj fields =>
      simp only [jfield] at hs hr
      unfold get_metadata
      simp only
      rw [hs]
      simp only [Option.getD_some, isPyTrue, if_true]
      rw [hr]
      simp only
      cases r with
      | obj rf =>
        simp only [jfield] at hres
        simp only
        rw [hres]
      | null => cases hres
      | bool b => cases hres
      | num n => cases hres
      | str s => cases hres
      | arr xs => cases hres
    | null => cases hs
    | bool b => cases hs
    | num n => cases hs
    | str s => cases hs
    | arr xs => cases hs

/-- Evaluation of C6 (amended): a conforming body returns its resource list
verbatim. -/
theorem get_metadata_spec_witness :
    get_metadata (some (.obj [("success", .bool true),
      ("result", .obj [("resources", .arr [.str "r1"])])])) =
      .ok (.arr [.str "r1"]) :=
  (get_metadata_spec _ _).mpr
    ⟨.obj [("success", .bool true),
      ("result", .obj [("resources", .arr [.str "r1"])])],
     .obj [("resources", .arr [.str "r1"])], rfl, rfl, rfl, rfl⟩

/-- C7, counterexample: in `wZipBroken` the first archive member
`a2021.csv` is eligible and parses successfully, yet because the second
member's parse raises out of `extract_valid_dataframes_from_zip` (which has
no handler), the descriptor contributes zero tables: the sibling's table is
lost too, contradicting entry-local recovery. -/
theorem zip_entry_parse_failure_cex :
    wZipBroken.readCsv 1 "utf-8" = .ok ⟨["a"], [0], [1]⟩ ∧
    wZipBroken.readZip 0 = .ok [("a2021.csv", 1), ("b2021.csv", 2)] ∧
    eligibleEntry (toString 2021) "a2021.csv" = true ∧
    extract_valid_dataframes_from_zip wZipBroken 0 2021 = .error "ParserError" ∧
    get_files wZipBroken [⟨some "https://x/y2021.zip", some "zip"⟩] 2021 =
      .ok ⟨[], ["Failed to process https://x/y2021.zip: ParserError"],
        ["https://x/y2021.zip"]⟩ :=
  ⟨rfl, rfl, by decide, rfl, rfl⟩

/-- C7, amended: a parse failure of one archive entry is recovered at the
descriptor level, not the entry level: the whole archive's tables
(including entries that parsed successfully) are omitted, the failure is
logged, and tables from the other descriptors — before or after the ZIP —
still contribute; the build is never aborted. -/
theorem zip_parse_failure_descriptor_isolated {β ρ : Type} (w : World β ρ)
    (year : Nat) (pre post : List Resource) (v : Resource)
    (u f e : String) (content : β)
    (hpre : ∀ r ∈ pre, (r.url).isSome) (hpost : ∀ r ∈ post, (r.url).isSome)
    (hu : v.url = some u)
    (hsel : skipResource (toString year) (toLowerStr u) = false)
    (hfetch : w.fetch u = .ok content)
    (hfmt : v.format = some f) (hzip : toLowerStr f = "zip")
    (hex : extract_valid_dataframes_from_zip w content year = .error e) :
    ∃ st st', get_files w (pre ++ v :: post) year = .ok st ∧
      get_files w (pre ++ post) year = .ok st' ∧
      st.dfs = st'.dfs ∧
      ("Failed to process " ++ u ++ ": " ++ e) ∈ st.logs := by
  have ha : attemptResource w year v u = .error e := by
    unfold attemptResource
    rw [hfetch, hfmt]
    simp only [if_pos hzip]
    exact hex
  obtain ⟨h1, h2⟩ := get_files_skip_failing w year pre post v u e hpre hpost hu hsel ha
  exact ⟨_, _, h1, h2, rfl, by simp⟩

/-- C8: when zero tables were collected (no matching descriptor, or every
matching descriptor failed), `create_df` still returns: an empty table
with zero rows and zero columns, plus the informational message. -/
theorem create_df_empty {β ρ : Type} (w : World β ρ) (rs : List Resource)
    (year : Nat) (st : BuildState ρ)
    (h : get_files w rs year = .ok st) (he : st.dfs = []) :
    create_df w rs year =
      .ok (emptyTable,
        st.logs ++ ["No valid data files found for year " ++ toString year ++ "."]) ∧
    (emptyTable : Table ρ).rows.length = 0 ∧
    (emptyTable : Table ρ).cols.length = 0 := by
  refine ⟨?_, rfl, rfl⟩
  unfold create_df
  rw [h]
  simp [he]

/-- Evaluation of C8 on `wPlain` with a catalog whose only descriptor is
for another year: the empty table and the message, no error. -/
theorem create_df_empty_witness :
    create_df wPlain [⟨some "https://x/b2020.csv", some "csv"⟩] 2021 =
      .ok (emptyTable, ["No valid data files found for year 2021."]) :=
  (create_df_empty wPlain [⟨some "https://x/b2020.csv", some "csv"⟩] 2021
    ⟨[], [], []⟩ rfl rfl).1

/-- C9: for a non-empty collection, `create_df` concatenates: its table's
rows are the contributed tables' rows stacked in collected order, its row
count is the sum of the contributing row counts, and its row labels are
reindexed contiguously from zero. -/
theorem create_df_concat {β ρ : Type} (w : World β ρ) (rs : List Resource)
    (year : Nat) (st : BuildState ρ)
    (h : get_files w rs year = .ok st) (hne : st.dfs ≠ []) :
    ∃ t, create_df w rs year = .ok (t, st.logs) ∧
      t.rows = ((st.dfs.map Prod.snd).map Table.rows).flatten ∧
      t.rows.length = ((st.dfs.map Prod.snd).map (fun tb => tb.rows.length)).sum ∧
      t.idx = List.range t.rows.length := by
  refine ⟨pdConcat (st.dfs.map Prod.snd), ?_, rfl, ?_, rfl⟩
  · unfold create_df
    rw [h]
    simp [List.isEmpty_iff, hne]
  · show ((st.dfs.map Prod.snd).map Table.rows).flatten.length = _
    rw [List.length_flatten, List.map_map]
    rfl

/-- Evaluation of C9 on `wPlain` and `rsFilter`: two ZIP members and one
direct CSV contribute 2 + 3 + 1 = 6 rows, stacked in collected order and
relabelled 0..5. -/
theorem create_df_concat_witness :
    ∃ t, create_df wPlain rsFilter 2021 = .ok (t, []) ∧
      t.rows = [1, 2, 4, 5, 6, 3] ∧
      t.rows.length = 6 ∧
      t.idx = [0, 1, 2, 3, 4, 5] := by
  obtain ⟨t, h1, h2, h3, h4⟩ := create_df_concat wPlain rsFilter 2021
    ⟨[(.entry "e2021.csv", ⟨["a"], [0, 1], [1, 2]⟩),
      (.entry "f2021.xlsx", ⟨["c"], [0, 1, 2], [4, 5, 6]⟩),
      (.url "https://x/b2021.csv", ⟨["b"], [0], [3]⟩)], [],
      ["https://x/a2021.zip", "https://x/b2021.csv"]⟩ rfl (by decide)
  have hr : t.rows = [1, 2, 4, 5, 6, 3] := h2.trans (by decide)
  refine ⟨t, h1, hr, ?_, ?_⟩
  · rw [hr]; rfl
  · rw [h4, hr]; rfl

/-- Evaluation of C7 (amended) on `wZipBroken`: the broken archive is
dropped whole, the following XLSX descriptor still contributes. -/
theorem zip_parse_failure_descriptor_isolated_witness :
    ∃ st st',
      get_files wZipBroken
        [⟨some "https://x/y2021.zip", some "zip"⟩,
         ⟨some "https://x/c2021.xlsx", some "xlsx"⟩] 2021 = .ok st ∧
      get_files wZipBroken
        [⟨some "https://x/c2021.xlsx", some "xlsx"⟩] 2021 = .ok st' ∧
      st.dfs = st'.dfs ∧
      ("Failed to process " ++ "https://x/y2021.zip" ++ ": " ++ "ParserError") ∈ st.logs :=
  zip_parse_failure_descriptor_isolated wZipBroken 2021
    [] [⟨some "https://x/c2021.xlsx", some "xlsx"⟩]
    ⟨some "https://x/y2021.zip", some "zip"⟩
    "https://x/y2021.zip" "zip" "ParserError" 0
    (by decide) (by decide) rfl (by decide) rfl rfl (by decide) rfl

/-- C10: a descriptor without a `url` key aborts the whole build when the
loop reaches it — line 61 sits outside the `try` — even though every
earlier descriptor was processed; `create_df` propagates the same error. -/
theorem get_files_missing_url_aborts {β ρ : Type} (w : World β ρ)
    (year : Nat) (pre post : List Resource) (v : Resource)
    (hv : v.url = none) (hpre : ∀ r ∈ pre, (r.url).isSome) :
    get_files w (pre ++ v :: post) year = .error "KeyError: url" ∧
    create_df w (pre ++ v :: post) year = .error "KeyError: url" := by
  have hg : get_files w (pre ++ v :: post) year = .error "KeyError: url" := by
    unfold get_files
    rw [List.foldlM_append,
      foldlM_processResource w year pre ⟨[], [], []⟩ hpre, except_ok_bind,
      List.foldlM_cons]
    have hbad : ∀ st : BuildState ρ,
        processResource w year st v = .error "KeyError: url" := by
      intro st
      unfold processResource
      rw [hv]
    rw [hbad, except_error_bind]
  refine ⟨hg, ?_⟩
  unfold create_df
  rw [hg]

/-- Evaluation of C10 on `wPlain`: the second descriptor lacks `url`; the
first (a valid XLSX) had already succeeded, yet the build errors. -/
theorem get_files_missing_url_aborts_witness :
    get_files wPlain
      [⟨some "https://x/c2021.xlsx", some "xlsx"⟩,
       ⟨none, some "csv"⟩,
       ⟨some "https://x/b2021.csv", some "csv"⟩] 2021 = .error "KeyError: url" ∧
    create_df wPlain
      [⟨some "https://x/c2021.xlsx", some "xlsx"⟩,
       ⟨none, some "csv"⟩,
       ⟨some "https://x/b2021.csv", some "csv"⟩] 2021 = .error "KeyError: url" :=
  get_files_missing_url_aborts wPlain 2021
    [⟨some "https://x/c2021.xlsx", some "xlsx"⟩]
    [⟨some "https://x/b2021.csv", some "csv"⟩]
    ⟨none, some "csv"⟩ rfl (by decide)

end BikeShare
